import Mathlib

set_option maxRecDepth 8192

/-!
Verification of the research-graph pipeline (`main.py`, `reset_db.py`).

Python strings are modelled as `List Char`; the Postgres store as an
in-memory `Store` structure whose row identifiers are naturals issued by a
counter (standing in for the generated UUIDs, which are never falsy and
never collide).  The language-model extraction collaborator is an abstract
function from the prompt text to an optional extraction result (`none`
models an extraction failure / raised exception).
-/

namespace ResearchGraph

abbrev PyStr := List Char

/-- Python `str.lower()` (basic-latin case folding, as used by the repository's names). -/
def pyLower (s : PyStr) : PyStr := s.map Char.toLower

/-- Python `str.strip()`: remove leading and trailing whitespace. -/
def pyStrip (s : PyStr) : PyStr :=
  ((s.dropWhile Char.isWhitespace).reverse.dropWhile Char.isWhitespace).reverse

/-- Python `str.replace(a, b)` for single characters `a`, `b`. -/
def pyReplaceChar (a b : Char) (s : PyStr) : PyStr :=
  s.map (fun c => if c = a then b else c)

/-- `normalize_key` from `main.py`:
`text.lower().strip().replace("-", " ").replace("_", " ")`, with empty input
mapped to the empty string. -/
def normalize_key (text : PyStr) : PyStr :=
  if text = [] then []
  else pyReplaceChar '_' ' ' (pyReplaceChar '-' ' ' (pyStrip (pyLower text)))

structure GraphNode where
  name : PyStr
  type : PyStr
  description : Option PyStr
deriving DecidableEq

structure GraphEdge where
  source : PyStr
  target : PyStr
  relation : PyStr
  context : PyStr
deriving DecidableEq

structure Extraction where
  nodes : List GraphNode
  edges : List GraphEdge
deriving DecidableEq

/-- The JSON properties blob written by `get_or_create_node`. -/
structure NodeProps where
  description : Option PyStr
  source_paper : PyStr
deriving DecidableEq

structure NodeRow where
  id : Nat
  name : PyStr
  type : PyStr
  properties : NodeProps
deriving DecidableEq

structure EdgeRow where
  id : Nat
  source_id : Nat
  target_id : Nat
  type : PyStr
  citation_context : PyStr
deriving DecidableEq

/-- The persistent graph store (`nodes` and `edges` tables); `nextId` is the
identifier generator. -/
structure Store where
  nodes : List NodeRow
  edges : List EdgeRow
  nextId : Nat
deriving DecidableEq

/-- A freshly reset, empty store (`reset_db.py`). -/
def store0 : Store := ⟨[], [], 0⟩

/-- `GraphDatabase.get_or_create_node`: look up by exact `(name, type)`;
return the existing id if found, otherwise insert a new row and return the
fresh id. -/
def get_or_create_node (db : Store) (node : GraphNode) (paper_source : PyStr) :
    Nat × Store :=
  match db.nodes.find? (fun r => r.name == node.name && r.type == node.type) with
  | some r => (r.id, db)
  | none =>
    (db.nextId,
      { db with
        nodes := db.nodes ++
          [⟨db.nextId, node.name, node.type, ⟨node.description, paper_source⟩⟩],
        nextId := db.nextId + 1 })

/-- `GraphDatabase.create_edge`: look up by exact
`(source_id, target_id, type)`; do nothing if found, otherwise insert. -/
def create_edge (db : Store) (source_id target_id : Nat) (edge : GraphEdge) :
    Store :=
  if db.edges.any (fun r =>
      r.source_id == source_id && r.target_id == target_id && r.type == edge.relation)
  then db
  else
    { db with
      edges := db.edges ++
        [⟨db.nextId, source_id, target_id, edge.relation, edge.context⟩],
      nextId := db.nextId + 1 }

/-- The per-document resolution map `node_map` (a Python dict). -/
abbrev NodeMap := PyStr → Option Nat

def emptyMap : NodeMap := fun _ => none

/-- `node_map[k] = v` (overwrites any previous binding: last write wins). -/
def mapInsert (k : PyStr) (v : Nat) (m : NodeMap) : NodeMap :=
  fun q => if q = k then some v else m q

/-- First loop of the consumer in `main`: insert every candidate node and
record `normalize_key(node.name) -> node_id`. -/
def consumeNodes (paper : PyStr) (db : Store) (m : NodeMap) :
    List GraphNode → NodeMap × Store
  | [] => (m, db)
  | n :: rest =>
    let idDb := get_or_create_node db n paper
    consumeNodes paper idDb.2 (mapInsert (normalize_key n.name) idDb.1 m) rest

/-- Second loop of the consumer in `main`: resolve both endpoints through the
map; create the edge when both resolve, otherwise count it as skipped. -/
def consumeEdges (db : Store) (m : NodeMap) (skipped : Nat) :
    List GraphEdge → Store × Nat
  | [] => (db, skipped)
  | e :: rest =>
    match m (normalize_key e.source), m (normalize_key e.target) with
    | some sid, some tid => consumeEdges (create_edge db sid tid e) m skipped rest
    | some _, none => consumeEdges db m (skipped + 1) rest
    | none, _ => consumeEdges db m (skipped + 1) rest

/-- One document's extraction-result consumption (steps 1 and 2 of `main`'s
per-document body); returns the updated store and the skipped-edge tally. -/
def consume (db : Store) (paper : PyStr) (ext : Extraction) : Store × Nat :=
  let mDb := consumeNodes paper db emptyMap ext.nodes
  consumeEdges mDb.2 mDb.1 0 ext.edges

/-- The separator inserted by the smart truncation in `process_pdf`. -/
def sepMarker : PyStr := "\n\n...[SECTION SKIPPED FOR TOKEN LIMIT]...\n\n".data

/-- The smart truncation at the end of `process_pdf` (limit 40000): texts at
most the limit pass unchanged; longer texts keep the first 35000 and the
last 5000 characters around the separator. -/
def truncate (full_text : PyStr) : PyStr :=
  if full_text.length ≤ 40000 then full_text
  else full_text.take 35000 ++ sepMarker ++ full_text.drop (full_text.length - 5000)

/-- The cleanup in `process_pdf`: drop null bytes, turn tabs into spaces,
strip surrounding whitespace. -/
def cleanupText (t : PyStr) : PyStr :=
  pyStrip (pyReplaceChar '\t' ' ' (t.filter (fun c => c != '\x00')))

/-- `process_pdf` after page extraction: cleanup, the minimum-length gate
(texts under 500 characters come back empty), then smart truncation. -/
def cleanAndTruncate (t : PyStr) : PyStr :=
  if (cleanupText t).length < 500 then [] else truncate (cleanupText t)

def promptHead : PyStr :=
  ("\n        You are an AI Researcher building a Knowledge Graph for the \"Gaussian Splatting\" domain.\n        \n        INPUT TEXT (Excerpt from \"").data

def promptMid : PyStr := ("\"):\n        ").data

def promptRest : PyStr :=
  (" \n\n        TASK:\n        Analyze the text agentically to extract a semantic graph.\n\n        STEP 1: REASONING (Internal Chain of Thought)\n        - Identify the core contribution of this paper.\n        - Identify what specific methods it *improves on* or *compares against*.\n        - Scan for architectural components (e.g., \"MLP\", \"Voxel Grid\", \"Spherical Harmonics\").\n\n        STEP 2: EXTRACTION RULES\n        - **Entities (Nodes)**: Extract Papers, Methods, Concepts, and Metrics.\n          - Normalize names: Use \"3D Gaussian Splatting\" instead of \"3DGS\" or \"Our Method\".\n        - **Relationships (Edges)**: Connect nodes using semantic verbs:\n          - IMPROVES_ON, INTRODUCES, USES, ALTERNATIVE_TO\n          - Do NOT extract citations just because they are listed. Only extract if there is a semantic relationship described (e.g., \"We outperform X by 10%\").\n        \n        STEP 3: VERIFICATION\n        - Ensure every 'source' and 'target' in your Edges list exists in your Nodes list.\n\n        OUTPUT:\n        Return strict JSON matching the ExtractionResult schema.\n        ").data

/-- The f-string prompt of `ResearchAgent.extract_graph`; only the first
40000 characters of the document text are interpolated (`text[:40000]`). -/
def buildPrompt (paper_title : PyStr) (text : PyStr) : PyStr :=
  promptHead ++ paper_title ++ promptMid ++ text.take 40000 ++ promptRest

/-- `ResearchAgent.extract_graph`, with the language model abstracted as
`agent`; `none` models a raised extraction exception. -/
def extract_graph (agent : PyStr → Option Extraction) (text : PyStr)
    (paper_title : PyStr) : Option Extraction :=
  agent (buildPrompt paper_title text)

structure Document where
  title : PyStr
  raw : PyStr
deriving DecidableEq

inductive DocOutcome where
  | skippedUnreadable : DocOutcome
  | extractionFailed : DocOutcome
  | processed : Nat → Nat → Nat → DocOutcome
deriving DecidableEq

/-- One iteration of the driver loop in `main`: cleanup/truncate the raw
text, skip empty results, call the extraction collaborator (failures are
caught), then consume the candidates. -/
def processDocument (agent : PyStr → Option Extraction) (db : Store)
    (doc : Document) : Store × DocOutcome :=
  let raw_text := cleanAndTruncate doc.raw
  if raw_text = [] then (db, DocOutcome.skippedUnreadable)
  else
    match extract_graph agent raw_text doc.title with
    | none => (db, DocOutcome.extractionFailed)
    | some g =>
      let dbSk := consume db doc.title g
      (dbSk.1, DocOutcome.processed g.nodes.length g.edges.length dbSk.2)

/-- The driver loop of `main` over the whole corpus, collecting one outcome
per document. -/
def runCorpus (agent : PyStr → Option Extraction) (db : Store) :
    List Document → Store × List DocOutcome
  | [] => (db, [])
  | d :: ds =>
    let step := processDocument agent db d
    let rest := runCorpus agent step.1 ds
    (rest.1, step.2 :: rest.2)

/-- Schema of one table as declared by the DDL in `reset_db.py`. -/
structure ForeignKeyDef where
  column : String
  refTable : String
  onDeleteCascade : Bool
deriving DecidableEq

structure TableSchema where
  tname : String
  primaryKey : List String
  uniques : List (List String)
  foreignKeys : List ForeignKeyDef
deriving DecidableEq

/-- The `nodes` table of `reset_db.py`: primary key `id`, and the
`unique_node_name_type` constraint on `(name, type)`. -/
def nodesTable : TableSchema := ⟨"nodes", ["id"], [["name", "type"]], []⟩

/-- The `edges` table of `reset_db.py`: primary key `id`, two cascading
foreign keys, and no further uniqueness constraint. -/
def edgesTable : TableSchema :=
  ⟨"edges", ["id"], [],
    [⟨"source_id", "nodes", true⟩, ⟨"target_id", "nodes", true⟩]⟩

/-- A raw SQL `INSERT` into `nodes`, honouring exactly the declared
constraints of `nodesTable`: the `id` primary key and the unique
`(name, type)` pair.  `none` models a constraint violation. -/
def dbInsertNodeRow (db : Store) (r : NodeRow) : Option Store :=
  if db.nodes.any (fun q => q.id == r.id) then none
  else if db.nodes.any (fun q => q.name == r.name && q.type == r.type) then none
  else some { db with nodes := db.nodes ++ [r] }

/-- A raw SQL `INSERT` into `edges`, honouring exactly the declared
constraints of `edgesTable`: the `id` primary key and the two foreign keys.
No uniqueness across `(source_id, target_id, type)` is declared, so a
duplicate triple is accepted. -/
def dbInsertEdgeRow (db : Store) (r : EdgeRow) : Option Store :=
  if db.edges.any (fun q => q.id == r.id) then none
  else if !(db.nodes.any (fun q => q.id == r.source_id)) then none
  else if !(db.nodes.any (fun q => q.id == r.target_id)) then none
  else some { db with edges := db.edges ++ [r] }

/-- Number of stored nodes with the given exact `(name, type)` pair. -/
def nodePairCount (db : Store) (name ty : PyStr) : Nat :=
  db.nodes.countP (fun r => r.name == name && r.type == ty)

/-- Number of stored edges with the given exact
`(source_id, target_id, type)` triple. -/
def edgeTripleCount (db : Store) (sid tid : Nat) (rel : PyStr) : Nat :=
  db.edges.countP (fun r => r.source_id == sid && r.target_id == tid && r.type == rel)

/-- A candidate edge both of whose endpoint names normalize to the
normalized name of some candidate node of the same document. -/
def edgeResolvable (ns : List GraphNode) (e : GraphEdge) : Bool :=
  ns.any (fun n => normalize_key n.name == normalize_key e.source) &&
  ns.any (fun n => normalize_key n.name == normalize_key e.target)

end ResearchGraph

namespace ResearchGraph

/-! ### Character-level helper lemmas -/

theorem toLower_toLower (c : Char) : (c.toLower).toLower = c.toLower := by
  unfold Char.toLower
  by_cases h : 65 ≤ c.toNat ∧ c.toNat ≤ 90
  · rw [if_pos h]
    obtain ⟨h1, h2⟩ := h
    interval_cases h3 : c.toNat <;> decide
  · rw [if_neg h, if_neg h]

theorem mapFixed {f : Char → Char} {l : PyStr} (h : ∀ c ∈ l, f c = c) :
    l.map f = l := by
  induction l with
  | nil => rfl
  | cons a t ih =>
    simp only [List.map_cons, h a (List.mem_cons_self a t)]
    rw [ih (fun c hc => h c (List.mem_cons_of_mem a hc))]

theorem mem_pyStrip {c : Char} {s : PyStr} (h : c ∈ pyStrip s) : c ∈ s := by
  unfold pyStrip at h
  rw [List.mem_reverse] at h
  have h2 := (List.dropWhile_sublist _).subset h
  rw [List.mem_reverse] at h2
  exact (List.dropWhile_sublist _).subset h2

/-- Every character of a normalized key is lower-case-stable and is neither
a hyphen nor an underscore. -/
theorem normalize_key_chars {c : Char} {s : PyStr} (h : c ∈ normalize_key s) :
    c.toLower = c ∧ c ≠ '-' ∧ c ≠ '_' := by
  unfold normalize_key at h
  by_cases hs : s = []
  · rw [if_pos hs] at h
    exact absurd h (List.not_mem_nil c)
  · rw [if_neg hs] at h
    unfold pyReplaceChar at h
    rw [List.mem_map] at h
    obtain ⟨b, hb, hbc⟩ := h
    rw [List.mem_map] at hb
    obtain ⟨a, ha, hab⟩ := hb
    have ha2 : a ∈ pyLower s := mem_pyStrip ha
    unfold pyLower at ha2
    rw [List.mem_map] at ha2
    obtain ⟨d, _, hda⟩ := ha2
    have haLow : a.toLower = a := by rw [← hda]; exact toLower_toLower d
    by_cases hA : a = '-'
    · rw [if_pos hA] at hab
      by_cases hB : b = '_'
      · rw [if_pos hB] at hbc
        rw [← hbc]
        exact ⟨by decide, by decide, by decide⟩
      · rw [if_neg hB] at hbc
        rw [← hbc, ← hab]
        exact ⟨by decide, by decide, by decide⟩
    · rw [if_neg hA] at hab
      by_cases hB : b = '_'
      · rw [if_pos hB] at hbc
        rw [← hbc]
        exact ⟨by decide, by decide, by decide⟩
      · rw [if_neg hB] at hbc
        rw [← hbc, ← hab]
        rw [← hab] at hB
        exact ⟨haLow, hA, hB⟩

theorem pyLower_normalize_key (s : PyStr) :
    pyLower (normalize_key s) = normalize_key s :=
  mapFixed (fun _ hc => (normalize_key_chars hc).1)

theorem replH_pyStrip_normalize_key (s : PyStr) :
    pyReplaceChar '-' ' ' (pyStrip (normalize_key s)) = pyStrip (normalize_key s) :=
  mapFixed (fun _ hc => if_neg (normalize_key_chars (mem_pyStrip hc)).2.1)

theorem replU_pyStrip_normalize_key (s : PyStr) :
    pyReplaceChar '_' ' ' (pyStrip (normalize_key s)) = pyStrip (normalize_key s) :=
  mapFixed (fun _ hc => if_neg (normalize_key_chars (mem_pyStrip hc)).2.2)

/-- Claim C2 is false as stated: normalization is not idempotent.  On the
concrete input `"-"` the first pass yields `" "` (the hyphen becomes a
space only after stripping), and the second pass strips that space away. -/
theorem normalize_key_not_idempotent :
    normalize_key ("-".data) = (" ".data) ∧
    normalize_key (normalize_key ("-".data)) = ("".data) ∧
    normalize_key (normalize_key ("-".data)) ≠ normalize_key ("-".data) := by
  decide

/-- Claim C2 (amended): a second normalization pass only strips the
whitespace that boundary hyphens/underscores may have introduced —
`normalize (normalize s) = strip (normalize s)` for every string `s` (so
normalization is idempotent exactly on inputs whose normal form carries no
leading or trailing whitespace) — and normalization is case- and
separator-insensitive: `"3D Gaussian Splatting"` and
`"3d-gaussian_splatting"` normalize identically. -/
theorem normalize_key_double (s : PyStr) :
    normalize_key (normalize_key s) = pyStrip (normalize_key s) ∧
    normalize_key ("3D Gaussian Splatting".data) =
      normalize_key ("3d-gaussian_splatting".data) := by
  constructor
  · by_cases hx : normalize_key s = []
    · rw [hx]; rfl
    · rw [normalize_key, if_neg hx, pyLower_normalize_key,
        replH_pyStrip_normalize_key, replU_pyStrip_normalize_key]
  · decide

/-! ### Store lemmas for the idempotent get-or-create operations -/

theorem find?_append_right {α : Type} {p : α → Bool} {l : List α} {a : α}
    (hl : l.find? p = none) (ha : p a = true) : (l ++ [a]).find? p = some a := by
  induction l with
  | nil => simp [List.find?_cons, ha]
  | cons b t ih =>
    have hb : ¬ p b = true := by
      intro hpb
      rw [List.find?_cons_of_pos _ hpb] at hl
      exact Option.noConfusion hl
    rw [List.find?_cons_of_neg _ hb] at hl
    rw [List.cons_append, List.find?_cons_of_neg _ hb]
    exact ih hl

/-- Claim C5: calling `get_or_create_node` twice with identical arguments
returns the same identifier both times, leaves the store untouched on the
second call (so existing properties are never updated), and leaves exactly
one node with that `(name, type)` pair in the store. -/
theorem get_or_create_node_idem (db : Store) (n : GraphNode) (p : PyStr)
    (h : nodePairCount db n.name n.type ≤ 1) :
    (get_or_create_node (get_or_create_node db n p).2 n p).1 =
      (get_or_create_node db n p).1 ∧
    (get_or_create_node (get_or_create_node db n p).2 n p).2 =
      (get_or_create_node db n p).2 ∧
    nodePairCount (get_or_create_node db n p).2 n.name n.type = 1 := by
  cases hf : db.nodes.find? (fun r => r.name == n.name && r.type == n.type) with
  | some r =>
    have hm := List.mem_of_find?_eq_some hf
    have hp := List.find?_some hf
    have hcount : 0 < nodePairCount db n.name n.type :=
      List.countP_pos_iff.mpr ⟨r, hm, hp⟩
    have h2 : (get_or_create_node db n p).2 = db := by simp [get_or_create_node, hf]
    refine ⟨by simp [get_or_create_node, hf], by simp [get_or_create_node, hf], ?_⟩
    rw [h2]
    omega
  | none =>
    have hall := List.find?_eq_none.mp hf
    have hcount : nodePairCount db n.name n.type = 0 :=
      List.countP_eq_zero.mpr hall
    have hnew : (fun r : NodeRow => r.name == n.name && r.type == n.type)
        (⟨db.nextId, n.name, n.type, ⟨n.description, p⟩⟩ : NodeRow) = true := by simp
    have hfind2 : (db.nodes ++
        [(⟨db.nextId, n.name, n.type, ⟨n.description, p⟩⟩ : NodeRow)]).find?
          (fun r => r.name == n.name && r.type == n.type) =
        some (⟨db.nextId, n.name, n.type, ⟨n.description, p⟩⟩ : NodeRow) :=
      find?_append_right hf hnew
    refine ⟨?_, ?_, ?_⟩
    · simp [get_or_create_node, hf, hfind2]
    · simp [get_or_create_node, hf, hfind2]
    · simp only [get_or_create_node, hf]
      unfold nodePairCount at hcount ⊢
      simp only [List.countP_append, hcount, List.countP_cons, hnew]
      simp

/-- Claim C6: calling `create_edge` twice with identical arguments (both
endpoints being persisted nodes) leaves exactly one edge with that
`(source_id, target_id, type)` triple, and the second call leaves the
store untouched, so the existing context is never overwritten. -/
theorem create_edge_idem (db : Store) (sid tid : Nat) (e : GraphEdge)
    (_hs : db.nodes.any (fun r => r.id == sid) = true)
    (_ht : db.nodes.any (fun r => r.id == tid) = true)
    (h : edgeTripleCount db sid tid e.relation ≤ 1) :
    create_edge (create_edge db sid tid e) sid tid e = create_edge db sid tid e ∧
    edgeTripleCount (create_edge db sid tid e) sid tid e.relation = 1 := by
  cases ha : db.edges.any (fun r =>
      r.source_id == sid && r.target_id == tid && r.type == e.relation) with
  | true =>
    obtain ⟨r, hr, hp⟩ := List.any_eq_true.mp ha
    have hcount : 0 < edgeTripleCount db sid tid e.relation :=
      List.countP_pos_iff.mpr ⟨r, hr, hp⟩
    have hce : create_edge db sid tid e = db := by simp [create_edge, ha]
    constructor
    · rw [hce]
      exact hce
    · rw [hce]
      omega
  | false =>
    have hall : ∀ r ∈ db.edges, ¬ (fun r : EdgeRow =>
        r.source_id == sid && r.target_id == tid && r.type == e.relation) r = true := by
      intro r hr hp
      exact (List.any_eq_false.mp ha) r hr hp
    have hcount : edgeTripleCount db sid tid e.relation = 0 :=
      List.countP_eq_zero.mpr hall
    have hnew : (fun r : EdgeRow =>
        r.source_id == sid && r.target_id == tid && r.type == e.relation)
        (⟨db.nextId, sid, tid, e.relation, e.context⟩ : EdgeRow) = true := by simp
    have ha2 : ((db.edges ++
        [(⟨db.nextId, sid, tid, e.relation, e.context⟩ : EdgeRow)]).any (fun r =>
          r.source_id == sid && r.target_id == tid && r.type == e.relation)) = true := by
      rw [List.any_append, ha]
      simp
    constructor
    · simp [create_edge, ha, ha2]
    · simp only [create_edge, ha, Bool.false_eq_true, if_false, ite_false]
      unfold edgeTripleCount at hcount ⊢
      simp only [List.countP_append, hcount, List.countP_cons, hnew]
      simp

/-! ### Concrete inputs used by witnesses and counterexamples -/

def nodeW : GraphNode := ⟨"3D Gaussian Splatting".data, "Method".data, none⟩

def storeN2 : Store :=
  ⟨[⟨0, "a".data, "T".data, ⟨none, "p".data⟩⟩,
    ⟨1, "b".data, "T".data, ⟨none, "p".data⟩⟩], [], 2⟩

def edgeW : GraphEdge := ⟨"a".data, "b".data, "USES".data, "c".data⟩

theorem get_or_create_node_idem_witness :
    (get_or_create_node (get_or_create_node store0 nodeW ("p".data)).2 nodeW ("p".data)).1 =
      (get_or_create_node store0 nodeW ("p".data)).1 ∧
    (get_or_create_node (get_or_create_node store0 nodeW ("p".data)).2 nodeW ("p".data)).2 =
      (get_or_create_node store0 nodeW ("p".data)).2 ∧
    nodePairCount (get_or_create_node store0 nodeW ("p".data)).2 nodeW.name nodeW.type = 1 :=
  get_or_create_node_idem store0 nodeW ("p".data) (by decide)

theorem create_edge_idem_witness :
    create_edge (create_edge storeN2 0 1 edgeW) 0 1 edgeW = create_edge storeN2 0 1 edgeW ∧
    edgeTripleCount (create_edge storeN2 0 1 edgeW) 0 1 edgeW.relation = 1 :=
  create_edge_idem storeN2 0 1 edgeW (by decide) (by decide) (by decide)

/-! ### Truncation -/

theorem truncate_gt {t : PyStr} (h : 40000 < t.length) :
    truncate t = t.take 35000 ++ sepMarker ++ t.drop (t.length - 5000) := by
  unfold truncate
  rw [if_neg (by omega)]

theorem sepMarker_length : sepMarker.length = 43 := by decide

/-- Claim C7: texts of length at most the 40000-character limit pass through
`truncate` unchanged; longer texts come back as the first 35000 characters
(the limit minus the 5000-character tail budget), then the fixed separator
marker, then the last 5000 characters, for a total length of exactly
40000 plus the separator length. -/
theorem truncate_spec (t : PyStr) :
    (t.length ≤ 40000 → truncate t = t) ∧
    (40000 < t.length →
      truncate t = t.take 35000 ++ sepMarker ++ t.drop (t.length - 5000) ∧
      (truncate t).length = 40000 + sepMarker.length) := by
  constructor
  · intro h
    unfold truncate
    rw [if_pos h]
  · intro h
    refine ⟨truncate_gt h, ?_⟩
    rw [truncate_gt h]
    simp only [List.length_append, List.length_take, List.length_drop]
    have hsep := sepMarker_length
    omega

theorem truncate_spec_witness :
    truncate (List.replicate 100000 'a') =
      List.replicate 35000 'a' ++ sepMarker ++ List.replicate 5000 'a' ∧
    (truncate (List.replicate 100000 'a')).length = 40000 + sepMarker.length := by
  have h := (truncate_spec (List.replicate 100000 'a')).2
    (by rw [List.length_replicate]; decide)
  refine ⟨?_, h.2⟩
  rw [h.1, List.take_replicate, List.drop_replicate, List.length_replicate,
    show min 35000 100000 = 35000 from by norm_num,
    show 100000 - (100000 - 5000) = 5000 from by norm_num]

/-- Claim C10: the prompt built by `extract_graph` embeds only the first
40000 characters of the document text, so when the text was truncated
(its length is then 40000 plus the separator length) the delivered excerpt
is the head, the separator and only the first `5000 - sepMarker.length`
characters of the preserved tail; the remaining final characters of the
tail are never delivered to the extraction collaborator. -/
theorem prompt_tail_cut (agent : PyStr → Option Extraction) (title t : PyStr)
    (h : 40000 < t.length) :
    extract_graph agent (truncate t) title =
      extract_graph agent ((truncate t).take 40000) title ∧
    (truncate t).take 40000 =
      t.take 35000 ++ sepMarker ++
        (t.drop (t.length - 5000)).take (5000 - sepMarker.length) ∧
    (truncate t).drop 40000 =
      (t.drop (t.length - 5000)).drop (5000 - sepMarker.length) ∧
    (truncate t).drop 40000 ≠ [] := by
  have hsep := sepMarker_length
  have hA : (t.take 35000).length = 35000 := by
    rw [List.length_take]
    omega
  have hB : (t.drop (t.length - 5000)).length = 5000 := by
    rw [List.length_drop]
    omega
  have htr := truncate_gt h
  have e1 : (t.take 35000).take 40000 = t.take 35000 :=
    List.take_of_length_le (by omega)
  have e2 : sepMarker.take (40000 - (t.take 35000).length) = sepMarker := by
    rw [hA]
    exact List.take_of_length_le (by omega)
  have e3 : 40000 - (t.take 35000 ++ sepMarker).length = 5000 - sepMarker.length := by
    rw [List.length_append, hA, hsep]
  have htake : (truncate t).take 40000 =
      t.take 35000 ++ sepMarker ++
        (t.drop (t.length - 5000)).take (5000 - sepMarker.length) := by
    rw [htr, List.take_append_eq_append_take, List.take_append_eq_append_take,
      e1, e2, e3]
  have d1 : (t.take 35000).drop 40000 = [] :=
    List.drop_eq_nil_of_le (by omega)
  have d2 : sepMarker.drop (40000 - (t.take 35000).length) = [] := by
    rw [hA]
    exact List.drop_eq_nil_of_le (by omega)
  have hdrop : (truncate t).drop 40000 =
      (t.drop (t.length - 5000)).drop (5000 - sepMarker.length) := by
    rw [htr, List.drop_append_eq_append_drop, List.drop_append_eq_append_drop,
      d1, d2, e3, List.nil_append, List.nil_append]
  refine ⟨?_, htake, hdrop, ?_⟩
  · unfold extract_graph buildPrompt
    rw [List.take_take]
    norm_num
  · rw [hdrop]
    intro hnil
    have hlen := congrArg List.length hnil
    rw [List.length_drop, hB] at hlen
    simp at hlen
    omega

def docLong : PyStr := List.replicate 45000 'b'

theorem prompt_tail_cut_witness :
    (truncate docLong).drop 40000 =
      (docLong.drop (docLong.length - 5000)).drop (5000 - sepMarker.length) ∧
    (truncate docLong).drop 40000 ≠ [] :=
  ⟨(prompt_tail_cut (fun _ => none) [] docLong
      (by unfold docLong; rw [List.length_replicate]; decide)).2.2.1,
   (prompt_tail_cut (fun _ => none) [] docLong
      (by unfold docLong; rw [List.length_replicate]; decide)).2.2.2⟩

/-! ### Driver behaviour -/

/-- Claim C9: a document whose cleaned-up text is shorter than the minimum
usable length of 500 characters is marked unreadable and skipped, the store
is left untouched, and the extraction collaborator is never invoked (the
outcome does not depend on the collaborator at all). -/
theorem unreadable_skipped (agent agent2 : PyStr → Option Extraction)
    (db : Store) (d : Document)
    (h : (cleanupText d.raw).length < 500) :
    processDocument agent db d = (db, DocOutcome.skippedUnreadable) ∧
    processDocument agent db d = processDocument agent2 db d := by
  have hct : cleanAndTruncate d.raw = [] := by
    unfold cleanAndTruncate
    rw [if_pos h]
  constructor <;> simp [processDocument, hct]

def agentNone : PyStr → Option Extraction := fun _ => none

def doc300 : Document := ⟨"tiny".data, List.replicate 300 'a'⟩

theorem unreadable_skipped_witness :
    processDocument agentNone store0 doc300 = (store0, DocOutcome.skippedUnreadable) :=
  (unreadable_skipped agentNone agentNone store0 doc300 (by decide)).1

theorem runCorpus_length (agent : PyStr → Option Extraction) :
    ∀ (docs : List Document) (db : Store),
    ((runCorpus agent db docs).2).length = docs.length := by
  intro docs
  induction docs with
  | nil => intro db; rfl
  | cons d ds ih => intro db; simp [runCorpus, ih]

/-- Claim C4: a single document whose processing fails (extraction error, or
empty/unreadable text) contributes only its logged outcome: the store is
left exactly as it was, the rest of the corpus is processed as if the bad
document were absent, and every document of the corpus always receives an
outcome — no failure aborts the run. -/
theorem driver_survives (agent : PyStr → Option Extraction) (db : Store)
    (d : Document) (ds : List Document)
    (h : cleanAndTruncate d.raw = [] ∨
      extract_graph agent (cleanAndTruncate d.raw) d.title = none) :
    (runCorpus agent db (d :: ds)).1 = (runCorpus agent db ds).1 ∧
    (runCorpus agent db (d :: ds)).2 =
      (processDocument agent db d).2 :: (runCorpus agent db ds).2 ∧
    (∀ docs : List Document, ((runCorpus agent db docs).2).length = docs.length) := by
  have hstep : (processDocument agent db d).1 = db := by
    rcases h with h1 | h2
    · simp [processDocument, h1]
    · by_cases hc : cleanAndTruncate d.raw = []
      · simp [processDocument, hc]
      · simp [processDocument, hc, h2]
  refine ⟨?_, ?_, fun docs => runCorpus_length agent docs db⟩
  · show (runCorpus agent (processDocument agent db d).1 ds).1 = (runCorpus agent db ds).1
    rw [hstep]
  · show (processDocument agent db d).2 ::
        (runCorpus agent (processDocument agent db d).1 ds).2 =
      (processDocument agent db d).2 :: (runCorpus agent db ds).2
    rw [hstep]

def docFailW : Document := ⟨"w".data, "tiny doc".data⟩

theorem driver_survives_witness :
    (runCorpus agentNone store0 [docFailW]).1 = (runCorpus agentNone store0 []).1 ∧
    (runCorpus agentNone store0 [docFailW]).2 =
      [(processDocument agentNone store0 docFailW).2] :=
  ⟨(driver_survives agentNone store0 docFailW [] (Or.inl (by decide))).1,
   (driver_survives agentNone store0 docFailW [] (Or.inl (by decide))).2.1⟩

/-! ### Extraction-result consumer -/

theorem consumeEdges_skipped (m : NodeMap) :
    ∀ (es : List GraphEdge) (db : Store) (k : Nat),
    (consumeEdges db m k es).2 =
      k + es.countP (fun e =>
        !((m (normalize_key e.source)).isSome &&
          (m (normalize_key e.target)).isSome)) := by
  intro es
  induction es with
  | nil =>
    intro db k
    simp [consumeEdges]
  | cons e rest ih =>
    intro db k
    rw [List.countP_cons]
    cases hs : m (normalize_key e.source) with
    | none =>
      simp only [consumeEdges, hs]
      rw [ih]
      simp
      omega
    | some sid =>
      cases ht : m (normalize_key e.target) with
      | none =>
        simp only [consumeEdges, hs, ht]
        rw [ih]
        simp
        omega
      | some tid =>
        simp only [consumeEdges, hs, ht]
        rw [ih]
        simp

theorem consumeNodes_map_isSome (paper : PyStr) :
    ∀ (ns : List GraphNode) (db : Store) (m : NodeMap) (k : PyStr),
    (((consumeNodes paper db m ns).1) k).isSome =
      (ns.any (fun n => normalize_key n.name == k) || (m k).isSome) := by
  intro ns
  induction ns with
  | nil =>
    intro db m k
    simp [consumeNodes]
  | cons n rest ih =>
    intro db m k
    rw [consumeNodes, ih, List.any_cons]
    by_cases hk : k = normalize_key n.name
    · simp [mapInsert, hk]
    · have hne : (normalize_key n.name == k) = false := by
        rw [beq_eq_false_iff_ne]
        exact fun hh => hk hh.symm
      simp [mapInsert, hk, hne]

theorem get_or_create_node_mono {db : Store} {n : GraphNode} {p : PyStr}
    {r : NodeRow} (h : r ∈ db.nodes) :
    r ∈ ((get_or_create_node db n p).2).nodes := by
  unfold get_or_create_node
  cases hf : db.nodes.find? (fun q => q.name == n.name && q.type == n.type) with
  | some q => exact h
  | none =>
    simp only [List.mem_append]
    exact Or.inl h

theorem get_or_create_node_creates (db : Store) (n : GraphNode) (p : PyStr) :
    ∃ r ∈ ((get_or_create_node db n p).2).nodes,
      r.name = n.name ∧ r.type = n.type := by
  unfold get_or_create_node
  cases hf : db.nodes.find? (fun q => q.name == n.name && q.type == n.type) with
  | some q =>
    have hm := List.mem_of_find?_eq_some hf
    have hp := List.find?_some hf
    simp only [Bool.and_eq_true, beq_iff_eq] at hp
    exact ⟨q, hm, hp.1, hp.2⟩
  | none =>
    refine ⟨⟨db.nextId, n.name, n.type, ⟨n.description, p⟩⟩, ?_, rfl, rfl⟩
    simp

theorem consumeNodes_mono (paper : PyStr) :
    ∀ (ns : List GraphNode) (db : Store) (m : NodeMap) (r : NodeRow),
    r ∈ db.nodes → r ∈ (((consumeNodes paper db m ns).2).nodes) := by
  intro ns
  induction ns with
  | nil =>
    intro db m r h
    exact h
  | cons n rest ih =>
    intro db m r h
    exact ih _ _ r (get_or_create_node_mono h)

theorem consumeNodes_creates (paper : PyStr) :
    ∀ (ns : List GraphNode) (db : Store) (m : NodeMap),
    ∀ n ∈ ns, ∃ r ∈ (((consumeNodes paper db m ns).2).nodes),
      r.name = n.name ∧ r.type = n.type := by
  intro ns
  induction ns with
  | nil =>
    intro db m n hn
    exact absurd hn (List.not_mem_nil n)
  | cons n0 rest ih =>
    intro db m n hn
    rcases List.mem_cons.mp hn with hh | ht
    · subst hh
      obtain ⟨r, hr, hname, htype⟩ := get_or_create_node_creates db n paper
      exact ⟨r, consumeNodes_mono paper rest _ _ r hr, hname, htype⟩
    · exact ih _ _ n ht

theorem create_edge_nodes (db : Store) (sid tid : Nat) (e : GraphEdge) :
    (create_edge db sid tid e).nodes = db.nodes := by
  unfold create_edge
  split <;> rfl

theorem consumeEdges_nodes (m : NodeMap) :
    ∀ (es : List GraphEdge) (db : Store) (k : Nat),
    ((consumeEdges db m k es).1).nodes = db.nodes := by
  intro es
  induction es with
  | nil =>
    intro db k
    rfl
  | cons e rest ih =>
    intro db k
    cases hs : m (normalize_key e.source) with
    | none => simp only [consumeEdges, hs, ih]
    | some sid =>
      cases ht : m (normalize_key e.target) with
      | none => simp only [consumeEdges, hs, ht, ih]
      | some tid =>
        simp only [consumeEdges, hs, ht, ih, create_edge_nodes]

theorem create_edge_mono {db : Store} {sid tid : Nat} {e : GraphEdge}
    {r : EdgeRow} (h : r ∈ db.edges) :
    r ∈ (create_edge db sid tid e).edges := by
  unfold create_edge
  split
  · exact h
  · simp only [List.mem_append]
    exact Or.inl h

theorem create_edge_creates (db : Store) (sid tid : Nat) (e : GraphEdge) :
    ∃ r ∈ (create_edge db sid tid e).edges,
      r.source_id = sid ∧ r.target_id = tid ∧ r.type = e.relation := by
  unfold create_edge
  by_cases ha : db.edges.any (fun r =>
      r.source_id == sid && r.target_id == tid && r.type == e.relation) = true
  · rw [if_pos ha]
    obtain ⟨r, hr, hp⟩ := List.any_eq_true.mp ha
    simp only [Bool.and_eq_true, beq_iff_eq] at hp
    exact ⟨r, hr, hp.1.1, hp.1.2, hp.2⟩
  · rw [if_neg ha]
    refine ⟨⟨db.nextId, sid, tid, e.relation, e.context⟩, ?_, rfl, rfl, rfl⟩
    simp

theorem consumeEdges_mono (m : NodeMap) :
    ∀ (es : List GraphEdge) (db : Store) (k : Nat) (r : EdgeRow),
    r ∈ db.edges → r ∈ ((consumeEdges db m k es).1).edges := by
  intro es
  induction es with
  | nil =>
    intro db k r h
    exact h
  | cons e rest ih =>
    intro db k r h
    cases hs : m (normalize_key e.source) with
    | none =>
      simp only [consumeEdges, hs]
      exact ih _ _ r h
    | some sid =>
      cases ht : m (normalize_key e.target) with
      | none =>
        simp only [consumeEdges, hs, ht]
        exact ih _ _ r h
      | some tid =>
        simp only [consumeEdges, hs, ht]
        exact ih _ _ r (create_edge_mono h)

theorem consumeEdges_creates (m : NodeMap) :
    ∀ (es : List GraphEdge) (db : Store) (k : Nat),
    ∀ e ∈ es, ∀ sid tid : Nat,
    m (normalize_key e.source) = some sid →
    m (normalize_key e.target) = some tid →
    ∃ r ∈ ((consumeEdges db m k es).1).edges,
      r.source_id = sid ∧ r.target_id = tid ∧ r.type = e.relation := by
  intro es
  induction es with
  | nil =>
    intro db k e he
    exact absurd he (List.not_mem_nil e)
  | cons e0 rest ih =>
    intro db k e he sid tid hs ht
    rcases List.mem_cons.mp he with hh | htl
    · subst hh
      simp only [consumeEdges, hs, ht]
      obtain ⟨r, hr, h1, h2, h3⟩ := create_edge_creates db sid tid e
      exact ⟨r, consumeEdges_mono m rest _ _ r hr, h1, h2, h3⟩
    · cases hs0 : m (normalize_key e0.source) with
      | none =>
        simp only [consumeEdges, hs0]
        exact ih _ _ e htl sid tid hs ht
      | some sid0 =>
        cases ht0 : m (normalize_key e0.target) with
        | none =>
          simp only [consumeEdges, hs0, ht0]
          exact ih _ _ e htl sid tid hs ht
        | some tid0 =>
          simp only [consumeEdges, hs0, ht0]
          exact ih _ _ e htl sid tid hs ht

/-- Claim C8: when exactly one candidate edge of a document references a
normalized name absent from the document's candidate node list, consuming
the document still creates every candidate node and every resolvable edge,
drops the one dangling edge, and reports a skipped-edge tally of exactly 1. -/
theorem one_dangling_edge_skipped (db : Store) (paper : PyStr) (ext : Extraction)
    (h : ext.edges.countP (fun e => !(edgeResolvable ext.nodes e)) = 1) :
    (consume db paper ext).2 = 1 ∧
    (∀ n ∈ ext.nodes, ∃ r ∈ ((consume db paper ext).1).nodes,
      r.name = n.name ∧ r.type = n.type) ∧
    (∀ e ∈ ext.edges, edgeResolvable ext.nodes e = true →
      ∃ r ∈ ((consume db paper ext).1).edges,
        some r.source_id =
          (consumeNodes paper db emptyMap ext.nodes).1 (normalize_key e.source) ∧
        some r.target_id =
          (consumeNodes paper db emptyMap ext.nodes).1 (normalize_key e.target) ∧
        r.type = e.relation) := by
  have hiso : ∀ k, (((consumeNodes paper db emptyMap ext.nodes).1) k).isSome =
      ext.nodes.any (fun n => normalize_key n.name == k) := by
    intro k
    rw [consumeNodes_map_isSome]
    simp [emptyMap]
  have hres : ∀ e : GraphEdge, edgeResolvable ext.nodes e =
      ((((consumeNodes paper db emptyMap ext.nodes).1) (normalize_key e.source)).isSome &&
       (((consumeNodes paper db emptyMap ext.nodes).1) (normalize_key e.target)).isSome) := by
    intro e
    rw [edgeResolvable, hiso, hiso]
  have hconsume : consume db paper ext =
      consumeEdges (consumeNodes paper db emptyMap ext.nodes).2
        (consumeNodes paper db emptyMap ext.nodes).1 0 ext.edges := rfl
  refine ⟨?_, ?_, ?_⟩
  · rw [hconsume, consumeEdges_skipped]
    have hcong : ext.edges.countP (fun e =>
        !((((consumeNodes paper db emptyMap ext.nodes).1) (normalize_key e.source)).isSome &&
          (((consumeNodes paper db emptyMap ext.nodes).1) (normalize_key e.target)).isSome)) =
        ext.edges.countP (fun e => !(edgeResolvable ext.nodes e)) :=
      List.countP_congr (fun e _ => by rw [hres e])
    rw [hcong, h]
  · intro n hn
    rw [hconsume, consumeEdges_nodes]
    exact consumeNodes_creates paper ext.nodes db emptyMap n hn
  · intro e he hre
    rw [hres e] at hre
    cases hs : ((consumeNodes paper db emptyMap ext.nodes).1) (normalize_key e.source) with
    | none =>
      rw [hs] at hre
      simp at hre
    | some sid =>
      cases ht : ((consumeNodes paper db emptyMap ext.nodes).1) (normalize_key e.target) with
      | none =>
        rw [hs, ht] at hre
        simp at hre
      | some tid =>
        rw [hconsume]
        obtain ⟨r, hr, h1, h2, h3⟩ :=
          consumeEdges_creates (consumeNodes paper db emptyMap ext.nodes).1
            ext.edges (consumeNodes paper db emptyMap ext.nodes).2 0 e he sid tid hs ht
        exact ⟨r, hr, by rw [h1], by rw [h2], h3⟩

def extW : Extraction :=
  ⟨[⟨"A".data, "T".data, none⟩],
   [⟨"A".data, "A".data, "R".data, "c1".data⟩,
    ⟨"A".data, "B".data, "R".data, "c2".data⟩]⟩

theorem one_dangling_edge_skipped_witness :
    (consume store0 ("paper".data) extW).2 = 1 :=
  (one_dangling_edge_skipped store0 ("paper".data) extW (by decide)).1

/-! ### Cross-document entity resolution (the NeRF scenario) -/

def extNeRF1 : Extraction :=
  ⟨[⟨"NeRF".data, "Method".data, none⟩, ⟨"X".data, "Concept".data, none⟩],
   [⟨"nerf".data, "X".data, "USES".data, "ctx1".data⟩]⟩

def extNeRF2 : Extraction :=
  ⟨[⟨"nerf".data, "Method".data, none⟩, ⟨"Y".data, "Concept".data, none⟩],
   [⟨"NeRF".data, "Y".data, "USES".data, "ctx2".data⟩]⟩

def runNeRF1 : Store × Nat := consume store0 ("doc one".data) extNeRF1

def runNeRF2 : Store × Nat := consume runNeRF1.1 ("doc two".data) extNeRF2

/-- Claim C1 is false as stated: processing the two documents (one producing
a candidate node named "NeRF", the other "nerf", both of type "Method")
leaves TWO "Method"-typed nodes in the store, not exactly one — the store
looks nodes up by exact `(name, type)`, and document-local normalization
never reaches it. -/
theorem nerf_two_nodes_counterexample :
    runNeRF2.1.nodes.countP (fun r => r.type == ("Method".data)) = 2 ∧
    ¬ (runNeRF2.1.nodes.countP (fun r => r.type == ("Method".data)) = 1) := by
  decide

/-- Claim C1 (amended): after both documents are processed the store holds
two "Method"-typed nodes, one per exact display name ("NeRF" with id 0 and
"nerf" with id 3); within each document's own pass every candidate edge
referencing "NeRF" or "nerf" resolves — to the Method node of that
document's pass (ids 0 and 3 respectively) — and no edge is skipped.
A single shared node would require the second document to repeat the
exact stored display name. -/
theorem nerf_two_nodes_amended :
    (runNeRF2.1.nodes.filter (fun r => r.type == ("Method".data))).map
        (fun r => (r.id, r.name)) = [(0, "NeRF".data), (3, "nerf".data)] ∧
    runNeRF2.1.edges.map (fun r => (r.source_id, r.target_id, r.type)) =
      [(0, 1, "USES".data), (3, 4, "USES".data)] ∧
    runNeRF1.2 = 0 ∧ runNeRF2.2 = 0 := by
  decide

/-! ### Database-level schema constraints -/

def c3Store : Store :=
  ⟨[⟨0, "n0".data, "T".data, ⟨none, "p".data⟩⟩,
    ⟨1, "n1".data, "T".data, ⟨none, "p".data⟩⟩], [], 2⟩

def c3EdgeA : EdgeRow := ⟨10, 0, 1, "USES".data, "c".data⟩

def c3EdgeB : EdgeRow := ⟨11, 0, 1, "USES".data, "c".data⟩

/-- Claim C3 is false as stated: the `edges` table of `reset_db.py` declares
NO unique constraint on `(source_id, target_id, type)` — only the `id`
primary key and the two foreign keys — so two raw inserts of the same
triple both succeed and leave two duplicate edges at the database level. -/
theorem schema_edge_unique_counterexample :
    ¬ (["source_id", "target_id", "type"] ∈ edgesTable.uniques) ∧
    (Option.map (fun db => edgeTripleCount db 0 1 ("USES".data))
      ((dbInsertEdgeRow c3Store c3EdgeA).bind
        (fun db1 => dbInsertEdgeRow db1 c3EdgeB)) = some 2) := by
  decide

/-- Claim C3 (amended): the `nodes` table carries a database-level unique
constraint on `(name, type)` — a raw insert of a duplicate pair is
rejected — but the `edges` table carries no unique constraint on
`(source_id, target_id, type)`, so duplicate prevention for edges depends
solely on the application's lookup-then-insert check in `create_edge`. -/
theorem schema_uniqueness_amended :
    nodesTable.uniques = [["name", "type"]] ∧
    edgesTable.uniques = [] ∧
    (∀ (db : Store) (r q : NodeRow), q ∈ db.nodes → q.name = r.name →
      q.type = r.type → dbInsertNodeRow db r = none) := by
  refine ⟨rfl, rfl, ?_⟩
  intro db r q hq hn ht
  unfold dbInsertNodeRow
  by_cases hid : db.nodes.any (fun x => x.id == r.id) = true
  · rw [if_pos hid]
  · rw [if_neg hid, if_pos ?hdup]
    case hdup =>
      refine List.any_eq_true.mpr ⟨q, hq, ?_⟩
      simp [hn, ht]

theorem schema_uniqueness_amended_witness :
    dbInsertNodeRow c3Store (⟨5, "n0".data, "T".data, ⟨none, "q".data⟩⟩ : NodeRow) =
      none :=
  schema_uniqueness_amended.2.2 c3Store
    (⟨5, "n0".data, "T".data, ⟨none, "q".data⟩⟩ : NodeRow)
    (⟨0, "n0".data, "T".data, ⟨none, "p".data⟩⟩ : NodeRow)
    (by decide) rfl rfl

end ResearchGraph
